import Mathlib

/-!
Verification of the `sloggcp` record-transformation pipeline.

The Go source is shallowly embedded: `slog.Value` / dynamic (`any`) values
become the mutual inductives `SlogValue` / `GoAny` / `Custom`, Go maps
(`map[string]any`) become association lists with last-write-wins insertion
(`setK`), and the capability dispatch (`value.(StackTraceError)` etc.) becomes
an `Option`-valued projection that requires the capabilities the Go interface
embeds.  `runtime.Caller` is modelled by an explicit list of stack frames
passed to the functions that capture locations.
-/

namespace Sloggcp

/-! ## Keys and constants (sloggcp.go, error_reporting.go) -/

def SeverityKey : String := "severity"

def MessageKey : String := "message"

def SourceLocationKey : String := "logging.googleapis.com/sourceLocation"

def TimeKey : String := "time"

def ErrorKey : String := "error"

def ErrorReportTypeKey : String := "@type"

def ErrorReportTypeValue : String :=
  "type.googleapis.com/google.devtools.clouderrorreporting.v1beta1.ReportedErrorEvent"

def ReportLocationKey : String := "reportLocation"

def FilePathKey : String := "filePath"

def LineNumberKey : String := "lineNumber"

def FunctionNameKey : String := "functionName"

/-- Keys used by the logging front-end (`log/slog`). -/
def slogTimeKey : String := "time"

def slogLevelKey : String := "level"

def slogMessageKey : String := "msg"

def slogSourceKey : String := "source"

/-! ## Levels (sloggcp.go): `slog.Level` is an integer. -/

def LevelDebug : Int := -4

def LevelInfo : Int := 0

def LevelNotice : Int := LevelInfo + 2

def LevelWarning : Int := 4

def LevelError : Int := 8

def LevelCritical : Int := LevelError + 2

def LevelAlert : Int := LevelError + 4

def LevelEmergency : Int := LevelError + 6

/-! ## Severity labels (sloggcp.go) -/

def DefaultSeverity : String := "DEFAULT"

def DebugSeverity : String := "DEBUG"

def InfoSeverity : String := "INFO"

def NoticeSeverity : String := "NOTICE"

def WarningSeverity : String := "WARNING"

def ErrorSeverity : String := "ERROR"

def CriticalSeverity : String := "CRITICAL"

def AlertSeverity : String := "ALERT"

def EmergencySeverity : String := "EMERGENCY"

/-- `severityFromLevel` (sloggcp.go): cascade from the highest threshold down. -/
def severityFromLevel (level : Int) : String :=
  if level ≥ LevelEmergency then EmergencySeverity
  else if level ≥ LevelAlert then AlertSeverity
  else if level ≥ LevelCritical then CriticalSeverity
  else if level ≥ LevelError then ErrorSeverity
  else if level ≥ LevelWarning then WarningSeverity
  else if level ≥ LevelNotice then NoticeSeverity
  else if level ≥ LevelInfo then InfoSeverity
  else if level ≥ LevelDebug then DebugSeverity
  else DefaultSeverity

/-! ## Report locations and sources -/

/-- `ReportLocation` (error_reporting.go). -/
structure ReportLocation where
  filePath : String
  lineNumber : Int
  functionName : String
deriving DecidableEq, Repr

/-- `slog.Source`: call-site captured by the front-end.  A non-nil
`*slog.Source`; typed nil pointers are not modelled. -/
structure SourceLoc where
  function : String
  file : String
  line : Int
deriving DecidableEq, Repr

/-- `NewReportLocation` (error_reporting.go).  `callers` models the call
stack as `runtime.Caller` sees it from inside `NewReportLocation`: index `i`
is the frame `runtime.Caller i` would report, so index 0 is
`NewReportLocation` itself and `runtime.Caller (skip+1)` is index `skip+1`.
The `!ok || fn == nil` failure cases are folded into `Option`. -/
def NewReportLocation (callers : List ReportLocation) (skip : Nat) : Option ReportLocation :=
  callers[skip + 1]?

/-! ## Dynamic values

`SlogValue` models `slog.Value` (a group of attributes, or any other kind,
whose `.Any()` is a `GoAny`).  `GoAny` models the Go `any` shapes the code
dispatches on.  `Custom` models an opaque application value together with the
capabilities (methods) its dynamic type implements: `Error() string`,
`StackTrace() ([]byte, bool)`, `ReportLocation() *ReportLocation`,
`LogValue() slog.Value`, `String() string`, and json/text marshaling.
`typeName` is the `%T` rendering of the dynamic type and `vForm` the `%v`
rendering used when neither `Error` nor `String` is implemented. -/

mutual

inductive SlogValue : Type where
  | group : List (String × SlogValue) → SlogValue
  | any : GoAny → SlogValue

inductive GoAny : Type where
  | str : String → GoAny
  | int : Int → GoAny
  | bool : Bool → GoAny
  | level : Int → GoAny
  | source : SourceLoc → GoAny
  | loc : ReportLocation → GoAny
  | attrList : List (String × SlogValue) → GoAny
  | map : List (String × GoAny) → GoAny
  | custom : Custom → GoAny

inductive Custom : Type where
  | mk (typeName vForm : String)
      (errMsg : Option String)
      (stackTrace : Option (String × Bool))
      (reportLoc : Option (Option ReportLocation))
      (logValue : Option SlogValue)
      (stringVal : Option String)
      (marshals : Bool) : Custom

end

def Custom.typeName : Custom → String
  | .mk tn _ _ _ _ _ _ _ => tn

def Custom.vForm : Custom → String
  | .mk _ vf _ _ _ _ _ _ => vf

def Custom.errMsg : Custom → Option String
  | .mk _ _ e _ _ _ _ _ => e

def Custom.stackTrace : Custom → Option (String × Bool)
  | .mk _ _ _ st _ _ _ _ => st

def Custom.reportLoc : Custom → Option (Option ReportLocation)
  | .mk _ _ _ _ rl _ _ _ => rl

def Custom.logValue : Custom → Option SlogValue
  | .mk _ _ _ _ _ lv _ _ => lv

def Custom.stringVal : Custom → Option String
  | .mk _ _ _ _ _ _ sv _ => sv

def Custom.marshals : Custom → Bool
  | .mk _ _ _ _ _ _ _ m => m

/-- `slog.Value.Any()`: a group kind yields the attribute slice, any other
kind yields the underlying value. -/
def valueAny : SlogValue → GoAny
  | .group as => .attrList as
  | .any d => d

/-! ## Go maps as association lists

`setK` is `m[k] = v` (overwrite in place or append), `getK` is lookup. -/

def setK (k : String) (v : GoAny) : List (String × GoAny) → List (String × GoAny)
  | [] => [(k, v)]
  | (k', v') :: rest => if k' = k then (k, v) :: rest else (k', v') :: setK k v rest

def getK (k : String) : List (String × GoAny) → Option GoAny
  | [] => none
  | (k', v') :: rest => if k' = k then some v' else getK k rest

theorem getK_setK_self (k : String) (v : GoAny) (m : List (String × GoAny)) :
    getK k (setK k v m) = some v := by
  induction m with
  | nil => simp [setK, getK]
  | cons p rest ih =>
    obtain ⟨k', v'⟩ := p
    by_cases h : k' = k
    · simp [setK, getK, h]
    · simp [setK, getK, h, ih]

theorem getK_setK_ne (k k' : String) (v : GoAny) (m : List (String × GoAny))
    (h : k ≠ k') : getK k (setK k' v m) = getK k m := by
  induction m with
  | nil => simp [setK, getK, Ne.symm h]
  | cons p rest ih =>
    obtain ⟨k₀, v₀⟩ := p
    by_cases h₀ : k₀ = k'
    · subst h₀
      simp [setK, getK, Ne.symm h]
    · simp [setK, getK, h₀, ih]

/-! ## Textual rendering (`fmt` / `slog.Level.String`)

`levelString` is `slog.Level.String()`.  `goVFormat` is the `%v` rendering of
a dynamic value: `Error()` wins, then `String()`, otherwise the opaque
`vForm`; slices of attributes render as bracketed `key=value` lists.  Pointer,
map and slice renderings that the claims never exercise are approximated. -/

def levelStr (base : String) (val : Int) : String :=
  if val = 0 then base
  else if 0 < val then base ++ "+" ++ toString val
  else base ++ toString val

def levelString (l : Int) : String :=
  if l < LevelInfo then levelStr "DEBUG" (l - LevelDebug)
  else if l < LevelWarning then levelStr "INFO" (l - LevelInfo)
  else if l < LevelError then levelStr "WARN" (l - LevelWarning)
  else levelStr "ERROR" (l - LevelError)

mutual

def goVFormat : GoAny → String
  | .str s => s
  | .int n => toString n
  | .bool b => toString b
  | .level n => levelString n
  | .source s => "&" ++ s.function
  | .loc r => "&" ++ r.filePath
  | .attrList as => "[" ++ attrsFormat as ++ "]"
  | .map m => "map[" ++ mapFormat m ++ "]"
  | .custom c =>
    match c.errMsg with
    | some m => m
    | none =>
      match c.stringVal with
      | some s => s
      | none => c.vForm

def attrsFormat : List (String × SlogValue) → String
  | [] => ""
  | [(k, v)] => k ++ "=" ++ slogValueString v
  | (k, v) :: rest => k ++ "=" ++ slogValueString v ++ " " ++ attrsFormat rest

def mapFormat : List (String × GoAny) → String
  | [] => ""
  | [(k, v)] => k ++ ":" ++ goVFormat v
  | (k, v) :: rest => k ++ ":" ++ goVFormat v ++ " " ++ mapFormat rest

/-- `slog.Value.String()`: a string kind yields the string itself, a group
renders as its attribute slice, any other kind renders via `%v`. -/
def slogValueString : SlogValue → String
  | .group as => "[" ++ attrsFormat as ++ "]"
  | .any d => goVFormat d

end

/-! ## `extractValue` (sloggcp.go)

Groups recurse member-wise into a fresh map; otherwise the dispatch order on
`v.Any()` is: `slog.LogValuer`, then json/text marshaler (passthrough — a
`slog.Level` implements `json.Marshaler`, and a `*ReportLocation` implements
`slog.LogValuer` via the `LogValue` method in error_reporting.go), then
`error`, then `fmt.Stringer`, then passthrough. -/

def buildMap : List (String × GoAny) → List (String × GoAny) :=
  fun ps => ps.foldl (fun m p => setK p.1 p.2 m) []

mutual

def extractValue : SlogValue → GoAny
  | .group as => .map (buildMap (extractAttrs as))
  | .any (.custom (.mk tn vf em st rl (some lv) sv mar)) => extractValue lv
  | .any (.custom (.mk tn vf em st rl none sv true)) =>
    .custom (.mk tn vf em st rl none sv true)
  | .any (.custom (.mk tn vf (some m) st rl none sv false)) => .str m
  | .any (.custom (.mk tn vf none st rl none (some s) false)) => .str s
  | .any (.custom (.mk tn vf none st rl none none false)) =>
    .custom (.mk tn vf none st rl none none false)
  | .any (.level n) => .level n
  | .any (.loc r) =>
    .map (buildMap [(FilePathKey, .str r.filePath), (LineNumberKey, .int r.lineNumber),
      (FunctionNameKey, .str r.functionName)])
  | .any d => d

def extractAttrs : List (String × SlogValue) → List (String × GoAny)
  | [] => []
  | (k, v) :: rest => (k, extractValue v) :: extractAttrs rest

end

/-! ## Capability assertions (Go interface type assertions)

`StackTraceError` and `ReportLocationError` both embed `error`, so the
assertion succeeds only for values that also implement `Error()`. -/

def GoAny.asStackTraceError : GoAny → Option (String × Bool)
  | .custom c => if c.errMsg.isSome then c.stackTrace else none
  | _ => none

def GoAny.asReportLocationError : GoAny → Option (Option ReportLocation)
  | .custom c => if c.errMsg.isSome then c.reportLoc else none
  | _ => none

def GoAny.asError : GoAny → Option String
  | .custom c => c.errMsg
  | _ => none

/-- `%T` rendering of a dynamic value's type. -/
def GoAny.goTypeName : GoAny → String
  | .str _ => "string"
  | .int _ => "int"
  | .bool _ => "bool"
  | .level _ => "slog.Level"
  | .source _ => "*slog.Source"
  | .loc _ => "*sloggcp.ReportLocation"
  | .attrList _ => "[]slog.Attr"
  | .map _ => "map[string]interface \x7b\x7d"
  | .custom c => c.typeName

/-- `assertErrorValue` (error_reporting.go).  `callers` is the call stack as
seen by a `NewReportLocation` invocation made from inside this function. -/
def assertErrorValue (callers : List ReportLocation) (value : GoAny) :
    String × Option ReportLocation :=
  let errMsg : String :=
    match value.asStackTraceError with
    | some (trace, true) => trace
    | _ => ""
  let reportLocation : Option ReportLocation :=
    match value.asReportLocationError with
    | some r => r
    | none => none
  if errMsg ≠ "" then (errMsg, reportLocation)
  else
    match value.asError with
    | some m => (m, reportLocation)
    | none =>
      match value with
      | .str s => (s, reportLocation)
      | v => ("sloggcp: unsupported type " ++ v.goTypeName ++ " with value " ++ goVFormat v,
          NewReportLocation callers 0)

/-- `checkAndSetErrorReport` (error_reporting.go): returns the Go function's
boolean result together with the updated `out` map. -/
def checkAndSetErrorReport (callers : List ReportLocation) (a : String × SlogValue)
    (out : List (String × GoAny)) : Bool × List (String × GoAny) :=
  if a.1 ≠ ErrorKey then (false, out)
  else
    let value := valueAny a.2
    let res := assertErrorValue callers value
    let out := setK ErrorReportTypeKey (.str ErrorReportTypeValue) out
    let out := setK MessageKey (.str res.1) out
    let out := setK ErrorKey value out
    let out :=
      match res.2 with
      | some l => setK ReportLocationKey (.loc l) out
      | none => out
    let out :=
      match value with
      | .custom c =>
        match c.logValue with
        | some lv => setK ErrorKey (extractValue lv) out
        | none =>
          match c.errMsg with
          | some m => setK ErrorKey (.str m) out
          | none => out
      | .loc r => setK ErrorKey (extractValue (.any (.loc r))) out
      | _ => out
    (true, out)

/-! ## Handler state and records (sloggcp.go) -/

/-- `groupOrAttrs`: a group name if non-empty, else an attribute batch. -/
structure GroupOrAttrs where
  group : String
  attrs : List (String × SlogValue)

/-- `slog.HandlerOptions` as this handler consumes them: `AddSource`, the
resolved minimum `Level`, and the optional `ReplaceAttr` hook. -/
structure HandlerOptions where
  addSource : Bool
  level : Int
  replaceAttr : Option (List String → (String × SlogValue) → (String × SlogValue))

structure Handler where
  opts : HandlerOptions
  goas : List GroupOrAttrs

/-- `(*handler).replaceAttr`: apply the hook when the caller supplied one. -/
def Handler.replaceAttr (h : Handler) (groups : List String)
    (a : String × SlogValue) : String × SlogValue :=
  match h.opts.replaceAttr with
  | some f => f groups a
  | none => a

/-- `(*handler).Enabled`. -/
def Handler.Enabled (h : Handler) (level : Int) : Bool :=
  level ≥ h.opts.level

/-- `(*handler).WithAttrs` via `withGroupOrAttrs`. -/
def Handler.WithAttrs (h : Handler) (attrs : List (String × SlogValue)) : Handler :=
  { h with goas := h.goas ++ [⟨"", attrs⟩] }

/-- `(*handler).WithGroup` via `withGroupOrAttrs`. -/
def Handler.WithGroup (h : Handler) (name : String) : Handler :=
  { h with goas := h.goas ++ [⟨name, []⟩] }

/-- `slog.Record`: `time` is `none` for a zero timestamp and otherwise holds
the record time's RFC3339Nano rendering; `source` is `none` when `r.Source()`
is nil. -/
structure Record where
  time : Option String
  message : String
  level : Int
  source : Option SourceLoc
  attrs : List (String × SlogValue)

/-- The trailing-group elision loop in `Handle`:
`for len(goas) > 0 && goas[len(goas)-1].group != "" { goas = goas[:len(goas)-1] }`. -/
def dropTrailingGroups (goas : List GroupOrAttrs) : List GroupOrAttrs :=
  (goas.reverse.dropWhile (fun goa => goa.group != "")).reverse

/-- The effective stack `Handle` replays: trailing group openers are dropped
exactly when the record carries no attributes. -/
def effectiveStack (goas : List GroupOrAttrs) (r : Record) : List GroupOrAttrs :=
  if r.attrs.isEmpty then dropTrailingGroups goas else goas

/-- Inner loop of the top-level error scan: the `break` leaves this batch at
the first attribute whose key is the error key. -/
def prescanBatch (callers : List ReportLocation) :
    List (String × SlogValue) → List (String × GoAny) → List (String × GoAny)
  | [], out => out
  | a :: rest, out =>
    let res := checkAndSetErrorReport callers a out
    if res.1 then res.2 else prescanBatch callers rest res.2

/-- Outer loop of the top-level error scan: stops at the first group opener;
the inner `break` does not leave this loop, so later batches are scanned. -/
def prescanStack (callers : List ReportLocation) :
    List GroupOrAttrs → List (String × GoAny) → List (String × GoAny)
  | [], out => out
  | goa :: rest, out =>
    if goa.group ≠ "" then out
    else prescanStack callers rest (prescanBatch callers goa.attrs out)

/-- Replay of one attribute batch: `group[a.Key] = a.Value.Any()` after the
hook. -/
def insertStackAttrs (h : Handler) (groups : List String) :
    List (String × SlogValue) → List (String × GoAny) → List (String × GoAny)
  | [], m => m
  | a :: rest, m =>
    let a' := h.replaceAttr groups a
    insertStackAttrs h groups rest (setK a'.1 (valueAny a'.2) m)

/-- The record's own attributes: the hook, then (at depth zero only, where the
current map is the top-level map) the error check against `out`, then
`group[a.Key] = extractValue(a.Value)`. -/
def recordAttrsWalk (h : Handler) (callers : List ReportLocation) (groups : List String) :
    List (String × SlogValue) → List (String × GoAny) → List (String × GoAny)
  | [], m => m
  | a :: rest, m =>
    let a' := h.replaceAttr groups a
    let m := if groups.isEmpty then (checkAndSetErrorReport callers a' m).2 else m
    recordAttrsWalk h callers groups rest (setK a'.1 (extractValue a'.2) m)

/-- Stack replay followed by the record-attribute walk.  A group opener
anchors a fresh nested map under its name in the current map and all
subsequent writes (including the record's attributes) land inside it; the Go
code's pointer aliasing (`group` starts as `out` and is only reassigned at
openers, parent maps never being written again) makes this functional nesting
exact. -/
def replay (h : Handler) (callers : List ReportLocation)
    (recAttrs : List (String × SlogValue)) :
    List GroupOrAttrs → List String → List (String × GoAny) → List (String × GoAny)
  | [], groups, cur => recordAttrsWalk h callers groups recAttrs cur
  | goa :: rest, groups, cur =>
    if goa.group ≠ "" then
      setK goa.group (.map (replay h callers recAttrs rest (groups ++ [goa.group]) [])) cur
    else
      replay h callers recAttrs rest groups (insertStackAttrs h groups goa.attrs cur)

/-- `(*handler).Handle` up to (not including) JSON encoding: the composed
output map.  Mirrors the source order: built-ins, severity, trailing-group
elision, top-level error scan, stack replay, record attributes. -/
def Handle (h : Handler) (callers : List ReportLocation) (r : Record) :
    List (String × GoAny) :=
  let out : List (String × GoAny) := []
  let out :=
    match r.time with
    | some t => setK TimeKey (.str t) out
    | none => out
  let out :=
    if h.opts.addSource then
      match r.source with
      | some s => setK SourceLocationKey (.source s) out
      | none => out
    else out
  let out := if r.message ≠ "" then setK MessageKey (.str r.message) out else out
  let out := setK SeverityKey (.str (severityFromLevel r.level)) out
  let goas := effectiveStack h.goas r
  let out := prescanStack callers goas out
  replay h callers r.attrs goas [] out

/-! ## `ReplaceAttr` (replace.go)

The package-level replacement function: an exact four-way switch on the level
value, not the `severityFromLevel` cascade. -/

def ReplaceAttr (groups : List String) (a : String × SlogValue) : String × SlogValue :=
  if a.1 = slogTimeKey ∧ groups = [] then a
  else if a.1 = slogLevelKey ∧ groups = [] then
    match valueAny a.2 with
    | .level logLevel =>
      if logLevel = LevelDebug then (SeverityKey, .any (.str DebugSeverity))
      else if logLevel = LevelInfo then (SeverityKey, .any (.str InfoSeverity))
      else if logLevel = LevelWarning then (SeverityKey, .any (.str WarningSeverity))
      else if logLevel = LevelError then (SeverityKey, .any (.str ErrorSeverity))
      else (SeverityKey, .any (.str DefaultSeverity))
    | _ => (SeverityKey, .any (.str DefaultSeverity))
  else if a.1 = slogSourceKey ∧ groups = [] then
    match valueAny a.2 with
    | .source s => (SourceLocationKey, .any (.source s))
    | _ => a
  else if a.1 = slogMessageKey ∧ groups = [] then
    (MessageKey, .any (.str (slogValueString a.2)))
  else a

/-! ## Helper lemmas -/

theorem checkAndSet_not_fired (cs : List ReportLocation) (a : String × SlogValue)
    (m : List (String × GoAny)) (h : a.1 ≠ ErrorKey) :
    checkAndSetErrorReport cs a m = (false, m) := by
  simp [checkAndSetErrorReport, h]

theorem checkAndSet_fired_fst (cs : List ReportLocation) (a : String × SlogValue)
    (m : List (String × GoAny)) (h : a.1 = ErrorKey) :
    (checkAndSetErrorReport cs a m).1 = true := by
  simp [checkAndSetErrorReport, h]

/-- Step 2 of `assertErrorValue`: the candidate location obtained from the
report-location capability. -/
def candidateLocation (v : GoAny) : Option ReportLocation :=
  match v.asReportLocationError with
  | some r => r
  | none => none

/-- The `ReplaceAttr` hook from the package example: remap `err` to the error
key at depth zero. -/
def remapErrHook : List String → (String × SlogValue) → (String × SlogValue) :=
  fun gs a => if gs = [] ∧ a.1 = "err" then (ErrorKey, a.2) else a

/-- The severity-rank order of the nine labels, `DEFAULT` lowest through
`EMERGENCY` highest; any other string ranks 0. -/
def severityRank (s : String) : Nat :=
  if s = DefaultSeverity then 0
  else if s = DebugSeverity then 1
  else if s = InfoSeverity then 2
  else if s = NoticeSeverity then 3
  else if s = WarningSeverity then 4
  else if s = ErrorSeverity then 5
  else if s = CriticalSeverity then 6
  else if s = AlertSeverity then 7
  else if s = EmergencySeverity then 8
  else 0

/-- The rank `severityFromLevel` lands on, expressed on the level axis. -/
def levelRank (level : Int) : Nat :=
  if level ≥ LevelEmergency then 8
  else if level ≥ LevelAlert then 7
  else if level ≥ LevelCritical then 6
  else if level ≥ LevelError then 5
  else if level ≥ LevelWarning then 4
  else if level ≥ LevelNotice then 3
  else if level ≥ LevelInfo then 2
  else if level ≥ LevelDebug then 1
  else 0

theorem severityRank_severityFromLevel (l : Int) :
    severityRank (severityFromLevel l) = levelRank l := by
  unfold severityFromLevel levelRank
  by_cases h1 : l ≥ LevelEmergency
  · rw [if_pos h1, if_pos h1]; decide
  rw [if_neg h1, if_neg h1]
  by_cases h2 : l ≥ LevelAlert
  · rw [if_pos h2, if_pos h2]; decide
  rw [if_neg h2, if_neg h2]
  by_cases h3 : l ≥ LevelCritical
  · rw [if_pos h3, if_pos h3]; decide
  rw [if_neg h3, if_neg h3]
  by_cases h4 : l ≥ LevelError
  · rw [if_pos h4, if_pos h4]; decide
  rw [if_neg h4, if_neg h4]
  by_cases h5 : l ≥ LevelWarning
  · rw [if_pos h5, if_pos h5]; decide
  rw [if_neg h5, if_neg h5]
  by_cases h6 : l ≥ LevelNotice
  · rw [if_pos h6, if_pos h6]; decide
  rw [if_neg h6, if_neg h6]
  by_cases h7 : l ≥ LevelInfo
  · rw [if_pos h7, if_pos h7]; decide
  rw [if_neg h7, if_neg h7]
  by_cases h8 : l ≥ LevelDebug
  · rw [if_pos h8, if_pos h8]; decide
  rw [if_neg h8, if_neg h8]
  decide

theorem recordAttrsWalk_getK_last (h : Handler) (hra : h.opts.replaceAttr = none)
    (cs : List ReportLocation) (as : List (String × SlogValue)) (k : String) (v : SlogValue)
    (m : List (String × GoAny)) :
    getK k (recordAttrsWalk h cs [] (as ++ [(k, v)]) m) = some (extractValue v) := by
  induction as generalizing m with
  | nil =>
    simp only [List.nil_append, recordAttrsWalk, Handler.replaceAttr, hra]
    exact getK_setK_self _ _ _
  | cons a rest ih =>
    simp only [List.cons_append, recordAttrsWalk, Handler.replaceAttr, hra]
    exact ih _

theorem replay_flat_eq (h : Handler) (cs : List ReportLocation)
    (ra : List (String × SlogValue)) (goas : List GroupOrAttrs)
    (hall : ∀ goa ∈ goas, goa.group = "") (m : List (String × GoAny)) :
    replay h cs ra goas [] m =
      recordAttrsWalk h cs [] ra
        (goas.foldl (fun acc goa => insertStackAttrs h [] goa.attrs acc) m) := by
  induction goas generalizing m with
  | nil => rfl
  | cons goa rest ih =>
    have hg : goa.group = "" := hall goa (List.mem_cons_self _ _)
    have hne : ¬(goa.group ≠ "") := by simp [hg]
    simp only [replay, if_neg hne, List.foldl_cons]
    exact ih (fun g hgm => hall g (List.mem_cons_of_mem _ hgm)) _

/-! ## Claim theorems -/

/-- C1 counterexample: the claim says the first error attribute in the
top-level stack wins and scanning then stops, so neither a later batch nor the
record's own attributes can change the error-report fields.  Both halves fail:
on a handler derived with two WithAttrs batches each carrying an error
attribute (first "a", then "b"), the emitted message is "b", not the first
occurrence "a" — the inner `break` only leaves the current batch; and on a
handler whose stack carries error "a" while the record itself carries error
"b", the record's error re-runs the report and the message is again "b". -/
theorem error_scan_not_stopped_after_first_batch :
    (getK MessageKey
      (Handle
        ((Handler.WithAttrs ⟨⟨false, 0, none⟩, []⟩ [(ErrorKey, .any (.str "a"))]).WithAttrs
          [(ErrorKey, .any (.str "b"))])
        [] ⟨none, "m", 8, none, []⟩) = some (.str "b") ∧
    getK MessageKey
      (Handle
        ((Handler.WithAttrs ⟨⟨false, 0, none⟩, []⟩ [(ErrorKey, .any (.str "a"))]).WithAttrs
          [(ErrorKey, .any (.str "b"))])
        [] ⟨none, "m", 8, none, []⟩) ≠ some (.str "a")) ∧
    (getK MessageKey
      (Handle ⟨⟨false, 0, none⟩, [⟨"", [(ErrorKey, .any (.str "a"))]⟩]⟩ []
        ⟨none, "m", 8, none, [(ErrorKey, .any (.str "b"))]⟩) = some (.str "b") ∧
    getK MessageKey
      (Handle ⟨⟨false, 0, none⟩, [⟨"", [(ErrorKey, .any (.str "a"))]⟩]⟩ []
        ⟨none, "m", 8, none, [(ErrorKey, .any (.str "b"))]⟩) ≠ some (.str "a")) := by
  refine ⟨⟨rfl, ?_⟩, ⟨rfl, ?_⟩⟩
  · intro h
    rw [show getK MessageKey
        (Handle
          ((Handler.WithAttrs ⟨⟨false, 0, none⟩, []⟩ [(ErrorKey, .any (.str "a"))]).WithAttrs
            [(ErrorKey, .any (.str "b"))])
          [] ⟨none, "m", 8, none, []⟩) = some (.str "b") from rfl] at h
    have hb : GoAny.str "b" = GoAny.str "a" := Option.some.inj h
    have hs : ("b" : String) = "a" := by injection hb
    exact absurd hs (by decide)
  · intro h
    rw [show getK MessageKey
        (Handle ⟨⟨false, 0, none⟩, [⟨"", [(ErrorKey, .any (.str "a"))]⟩]⟩ []
          ⟨none, "m", 8, none, [(ErrorKey, .any (.str "b"))]⟩) = some (.str "b") from rfl] at h
    have hb : GoAny.str "b" = GoAny.str "a" := Option.some.inj h
    have hs : ("b" : String) = "a" := by injection hb
    exact absurd hs (by decide)

/-- C1 amended: within one top-level attribute batch the scan stops at the
first error-keyed attribute (attributes after it in that batch cannot affect
the report), but each later top-level batch is scanned again, and a depth-zero
error attribute on the record itself re-runs the report as well, so the last
error-keyed occurrence — across later batches and record attributes —
determines the error-report fields (second conjunct: the message comes from
the second batch; third conjunct: the record's error message overwrites the
stack's). -/
theorem error_scan_first_match_per_batch :
    (∀ (cs : List ReportLocation) (as₁ : List (String × SlogValue)) (a : String × SlogValue)
        (as₂ : List (String × SlogValue)) (m : List (String × GoAny)),
      a.1 = ErrorKey → (∀ b ∈ as₁, b.1 ≠ ErrorKey) →
        prescanBatch cs (as₁ ++ a :: as₂) m = (checkAndSetErrorReport cs a m).2) ∧
    (∀ (cs : List ReportLocation) (s₁ s₂ : String) (m : List (String × GoAny)),
      getK MessageKey
        (prescanStack cs
          [⟨"", [(ErrorKey, .any (.str s₁))]⟩, ⟨"", [(ErrorKey, .any (.str s₂))]⟩] m) =
        some (.str s₂)) ∧
    (∀ (cs : List ReportLocation) (s₁ s₂ : String),
      getK MessageKey
        (Handle ⟨⟨false, 0, none⟩, [⟨"", [(ErrorKey, .any (.str s₁))]⟩]⟩ cs
          ⟨none, "m", 8, none, [(ErrorKey, .any (.str s₂))]⟩) = some (.str s₂)) := by
  refine ⟨?_, ?_, ?_⟩
  · intro cs as₁ a as₂ m ha h₁
    induction as₁ generalizing m with
    | nil =>
      simp only [List.nil_append, prescanBatch, checkAndSet_fired_fst cs a m ha, if_true]
    | cons b rest ih =>
      have hb : b.1 ≠ ErrorKey := h₁ b (List.mem_cons_self b rest)
      simp only [List.cons_append, prescanBatch, checkAndSet_not_fired cs b m hb]
      simpa using ih m (fun x hx => h₁ x (List.mem_cons_of_mem b hx))
  · intro cs s₁ s₂ m
    have hred : prescanStack cs
        [⟨"", [(ErrorKey, .any (.str s₁))]⟩, ⟨"", [(ErrorKey, .any (.str s₂))]⟩] m =
      setK ErrorKey (.str s₂) (setK MessageKey (.str s₂)
        (setK ErrorReportTypeKey (.str ErrorReportTypeValue)
          (setK ErrorKey (.str s₁) (setK MessageKey (.str s₁)
            (setK ErrorReportTypeKey (.str ErrorReportTypeValue) m))))) := rfl
    rw [hred, getK_setK_ne MessageKey ErrorKey _ _ (by decide), getK_setK_self]
  · intro cs s₁ s₂
    have hred : Handle ⟨⟨false, 0, none⟩, [⟨"", [(ErrorKey, .any (.str s₁))]⟩]⟩ cs
        ⟨none, "m", 8, none, [(ErrorKey, .any (.str s₂))]⟩ =
      setK ErrorKey (.str s₂) (setK ErrorKey (.str s₂) (setK MessageKey (.str s₂)
        (setK ErrorReportTypeKey (.str ErrorReportTypeValue)
          (setK ErrorKey (.str s₁) (setK ErrorKey (.str s₁) (setK MessageKey (.str s₁)
            (setK ErrorReportTypeKey (.str ErrorReportTypeValue)
              [(MessageKey, .str "m"), (SeverityKey, .str (severityFromLevel 8))]))))))) := rfl
    rw [hred, getK_setK_ne MessageKey ErrorKey _ _ (by decide),
      getK_setK_ne MessageKey ErrorKey _ _ (by decide), getK_setK_self]

/-- C1 witness: the batch scan stops at the first error attribute of a batch
even when a later error attribute follows in the same batch. -/
theorem error_scan_first_match_per_batch_witness :
    prescanBatch []
      [("x", .any (.str "v")), (ErrorKey, .any (.str "a")), (ErrorKey, .any (.str "z"))] [] =
      (checkAndSetErrorReport [] (ErrorKey, .any (.str "a")) []).2 :=
  error_scan_first_match_per_batch.1 [] [("x", .any (.str "v"))] (ErrorKey, .any (.str "a"))
    [(ErrorKey, .any (.str "z"))] [] rfl
    (by intro b hb; rw [List.mem_singleton] at hb; subst hb; decide)

/-- C2 counterexample: the claim says stack-replay attributes are flattened by
`extractValue` like record attributes.  An error value added via WithAttrs is
inserted raw (`a.Value.Any()`), not as its message string "boom", which is
what `extractValue` would produce. -/
theorem stack_error_attr_inserted_raw :
    getK "e"
      (Handle (Handler.WithAttrs ⟨⟨false, 0, none⟩, []⟩
          [("e", .any (.custom (.mk "main.appError" "" (some "boom") none none none none false)))])
        [] ⟨none, "m", 8, none, []⟩) =
      some (.custom (.mk "main.appError" "" (some "boom") none none none none false)) ∧
    extractValue (.any (.custom (.mk "main.appError" "" (some "boom") none none none none false))) =
      .str "boom" ∧
    GoAny.custom (.mk "main.appError" "" (some "boom") none none none none false) ≠ .str "boom" := by
  refine ⟨rfl, rfl, ?_⟩
  intro h
  exact GoAny.noConfusion h

/-- C2 amended: during stack replay an attribute batch entry is inserted with
`a.Value.Any()` (no flattening), whereas the same attribute carried on the
record itself is inserted flattened through `extractValue`. -/
theorem replay_raw_record_extracted (k : String) (v : SlogValue) :
    getK k (Handle ⟨⟨false, 0, none⟩, [⟨"", [(k, v)]⟩]⟩ [] ⟨none, "m", 8, none, []⟩) =
      some (valueAny v) ∧
    getK k (Handle ⟨⟨false, 0, none⟩, []⟩ [] ⟨none, "m", 8, none, [(k, v)]⟩) =
      some (extractValue v) := by
  constructor
  · have h1 : Handle ⟨⟨false, 0, none⟩, [⟨"", [(k, v)]⟩]⟩ [] ⟨none, "m", 8, none, []⟩ =
        setK k (valueAny v)
          (prescanBatch [] [(k, v)]
            [(MessageKey, .str "m"), (SeverityKey, .str (severityFromLevel 8))]) := rfl
    rw [h1, getK_setK_self]
  · have h2 : Handle ⟨⟨false, 0, none⟩, []⟩ [] ⟨none, "m", 8, none, [(k, v)]⟩ =
        setK k (extractValue v)
          ((checkAndSetErrorReport [] (k, v)
            [(MessageKey, .str "m"), (SeverityKey, .str (severityFromLevel 8))]).2) := rfl
    rw [h2, getK_setK_self]

/-- C3 counterexample: the claim says the user hook runs before error
inspection also for WithAttrs stack attributes.  With a hook remapping "err"
to the error key, a stack attribute ("err", "boom") produces no error report:
no type marker appears, the record message survives, and the remapped value is
stored as a plain attribute. -/
theorem stack_remap_not_error_detected :
    getK ErrorReportTypeKey
      (Handle ⟨⟨false, 0, some remapErrHook⟩, [⟨"", [("err", .any (.str "boom"))]⟩]⟩
        [] ⟨none, "m", 8, none, []⟩) = none ∧
    getK MessageKey
      (Handle ⟨⟨false, 0, some remapErrHook⟩, [⟨"", [("err", .any (.str "boom"))]⟩]⟩
        [] ⟨none, "m", 8, none, []⟩) = some (.str "m") ∧
    getK ErrorKey
      (Handle ⟨⟨false, 0, some remapErrHook⟩, [⟨"", [("err", .any (.str "boom"))]⟩]⟩
        [] ⟨none, "m", 8, none, []⟩) = some (.str "boom") :=
  ⟨rfl, rfl, rfl⟩

/-- C3 amended: the hook is applied before error inspection only for the
record's own attributes: a record attribute remapped to the error key fires
the error report, while the identical attribute supplied via WithAttrs is
prescanned raw and fires no report. -/
theorem record_remap_detected_stack_remap_not (s : String) :
    getK ErrorReportTypeKey
      (Handle ⟨⟨false, 0, some remapErrHook⟩, []⟩ []
        ⟨none, "m", 8, none, [("err", .any (.str s))]⟩) =
      some (.str ErrorReportTypeValue) ∧
    getK MessageKey
      (Handle ⟨⟨false, 0, some remapErrHook⟩, []⟩ []
        ⟨none, "m", 8, none, [("err", .any (.str s))]⟩) =
      some (.str s) ∧
    getK ErrorReportTypeKey
      (Handle ⟨⟨false, 0, some remapErrHook⟩, [⟨"", [("err", .any (.str s))]⟩]⟩
        [] ⟨none, "m", 8, none, []⟩) = none :=
  ⟨rfl, rfl, rfl⟩

/-- C4: in `assertErrorValue`, a stack-trace capability returning (trace,
true) with non-empty trace makes the trace the entire message, paired with the
candidate report location; when the trace is empty or the flag is false, the
value's error text becomes the message, still paired with that location. -/
theorem assertErrorValue_trace_priority (cs : List ReportLocation) (v : GoAny) :
    (∀ trace, v.asStackTraceError = some (trace, true) → trace ≠ "" →
      assertErrorValue cs v = (trace, candidateLocation v)) ∧
    (∀ m, (∀ trace, v.asStackTraceError = some (trace, true) → trace = "") →
      v.asError = some m →
      assertErrorValue cs v = (m, candidateLocation v)) := by
  constructor
  · intro trace ht hne
    simp [assertErrorValue, ht, hne, candidateLocation]
  · intro m hempty herr
    rcases hst : v.asStackTraceError with _ | ⟨t, b⟩
    · simp [assertErrorValue, hst, herr, candidateLocation]
    · cases b with
      | false => simp [assertErrorValue, hst, herr, candidateLocation]
      | true =>
        have ht : t = "" := hempty t hst
        subst ht
        simp [assertErrorValue, hst, herr, candidateLocation]

/-- C4 witness: a value with error text "E", trace "TRACE" and a location
yields ("TRACE", location); the same value with an empty trace yields
("E", location). -/
theorem assertErrorValue_trace_priority_witness :
    assertErrorValue [] (.custom (.mk "T" "" (some "E") (some ("TRACE", true))
        (some (some ⟨"f.go", 3, "fn"⟩)) none none false)) = ("TRACE", some ⟨"f.go", 3, "fn"⟩) ∧
    assertErrorValue [] (.custom (.mk "T" "" (some "E") (some ("", true))
        (some (some ⟨"f.go", 3, "fn"⟩)) none none false)) = ("E", some ⟨"f.go", 3, "fn"⟩) := by
  constructor
  · exact (assertErrorValue_trace_priority [] _).1 "TRACE" rfl (by decide)
  · exact (assertErrorValue_trace_priority [] _).2 "E"
      (fun t ht => (congrArg Prod.fst (Option.some.inj ht)).symm) rfl

/-- C5 counterexample: the claim says the package-level `ReplaceAttr` maps a
level through the nine-label cascade, so the notice level should map to the
notice label.  It maps the notice level to the "DEFAULT" label instead, while
`severityFromLevel` on the same level yields "NOTICE". -/
theorem replaceAttr_notice_level_defaults :
    ReplaceAttr [] (slogLevelKey, .any (.level LevelNotice)) =
      (SeverityKey, .any (.str DefaultSeverity)) ∧
    severityFromLevel LevelNotice = NoticeSeverity ∧
    DefaultSeverity ≠ NoticeSeverity :=
  ⟨rfl, rfl, by decide⟩

/-- C5 amended: the package-level `ReplaceAttr` agrees with the
`severityFromLevel` cascade only on the four exact base levels
(debug/info/warn/error) and returns the "DEFAULT" label for every other level
value as well as for any non-level value. -/
theorem replaceAttr_level_exact_match_only (n : Int) :
    ReplaceAttr [] (slogLevelKey, .any (.level n)) =
      (SeverityKey, .any (.str
        (if n = LevelDebug ∨ n = LevelInfo ∨ n = LevelWarning ∨ n = LevelError
          then severityFromLevel n else DefaultSeverity))) ∧
    (∀ d : GoAny, (∀ m : Int, d ≠ .level m) →
      ReplaceAttr [] (slogLevelKey, .any d) = (SeverityKey, .any (.str DefaultSeverity))) := by
  constructor
  · have hL : ReplaceAttr [] (slogLevelKey, .any (.level n)) =
        (if n = LevelDebug then (SeverityKey, .any (.str DebugSeverity))
         else if n = LevelInfo then (SeverityKey, .any (.str InfoSeverity))
         else if n = LevelWarning then (SeverityKey, .any (.str WarningSeverity))
         else if n = LevelError then (SeverityKey, .any (.str ErrorSeverity))
         else (SeverityKey, .any (.str DefaultSeverity))) := rfl
    rw [hL]
    by_cases h1 : n = LevelDebug
    · subst h1; rfl
    by_cases h2 : n = LevelInfo
    · subst h2; rfl
    by_cases h3 : n = LevelWarning
    · subst h3; rfl
    by_cases h4 : n = LevelError
    · subst h4; rfl
    simp [h1, h2, h3, h4]
  · intro d hd
    cases d <;> first | rfl | exact absurd rfl (hd _)

/-- C5 witness: the notice level and a non-level value both map to the
"DEFAULT" label. -/
theorem replaceAttr_level_exact_match_only_witness :
    ReplaceAttr [] (slogLevelKey, .any (.level 2)) = (SeverityKey, .any (.str DefaultSeverity)) ∧
    ReplaceAttr [] (slogLevelKey, .any (.str "x")) = (SeverityKey, .any (.str DefaultSeverity)) := by
  constructor
  · exact (replaceAttr_level_exact_match_only 2).1
  · exact (replaceAttr_level_exact_match_only 2).2 (.str "x") (fun m h => GoAny.noConfusion h)

/-- C6: trailing group openers are dropped exactly when the record carries no
attributes: a record with attributes keeps the full stack; deriving with group
"g" and logging without attributes yields no "g" key; deriving with "g" then
attributes bar=baz yields g containing bar=baz; and a record attribute under
an open trailing group "g" materializes it. -/
theorem trailing_group_elision :
    (∀ (goas : List GroupOrAttrs) (r : Record), r.attrs ≠ [] → effectiveStack goas r = goas) ∧
    getK "g" (Handle (Handler.WithGroup ⟨⟨false, 0, none⟩, []⟩ "g") [] ⟨none, "m", 0, none, []⟩) =
      none ∧
    getK "g" (Handle ((Handler.WithGroup ⟨⟨false, 0, none⟩, []⟩ "g").WithAttrs
        [("bar", .any (.str "baz"))]) [] ⟨none, "m", 0, none, []⟩) =
      some (.map [("bar", .str "baz")]) ∧
    getK "g" (Handle (Handler.WithGroup ⟨⟨false, 0, none⟩, []⟩ "g") []
        ⟨none, "m", 0, none, [("x", .any (.str "y"))]⟩) =
      some (.map [("x", .str "y")]) := by
  refine ⟨?_, rfl, rfl, rfl⟩
  intro goas r h
  rw [effectiveStack, if_neg]
  simp [h]

/-- C6 witness: a record with an attribute keeps a trailing group opener in
the effective stack. -/
theorem trailing_group_elision_witness :
    effectiveStack [⟨"g", []⟩] ⟨none, "m", 0, none, [("x", .any (.str "y"))]⟩ = [⟨"g", []⟩] :=
  trailing_group_elision.1 _ _ (by simp)

/-- C7 counterexample: the claim says the message key is inserted
unconditionally, including for the empty message.  A record with an empty
message yields an output map without the message key at all. -/
theorem empty_message_key_omitted :
    Handle ⟨⟨false, 0, none⟩, []⟩ [] ⟨none, "", 0, none, []⟩ =
      [(SeverityKey, .str InfoSeverity)] ∧
    getK MessageKey (Handle ⟨⟨false, 0, none⟩, []⟩ [] ⟨none, "", 0, none, []⟩) = none :=
  ⟨rfl, rfl⟩

/-- C7 amended: the message key is inserted only when the record's message is
non-empty; the time key only when the timestamp is non-zero; the
source-location key only when source capture is enabled and a source is
present; severity always. -/
theorem builtin_field_conditions (t : Option String) (msg : String) (src : Option SourceLoc)
    (b : Bool) (lvl : Int) :
    getK TimeKey (Handle ⟨⟨b, 0, none⟩, []⟩ [] ⟨t, msg, lvl, src, []⟩) = t.map GoAny.str ∧
    getK SourceLocationKey (Handle ⟨⟨b, 0, none⟩, []⟩ [] ⟨t, msg, lvl, src, []⟩) =
      (if b then src.map GoAny.source else none) ∧
    getK MessageKey (Handle ⟨⟨b, 0, none⟩, []⟩ [] ⟨t, msg, lvl, src, []⟩) =
      (if msg = "" then none else some (.str msg)) ∧
    getK SeverityKey (Handle ⟨⟨b, 0, none⟩, []⟩ [] ⟨t, msg, lvl, src, []⟩) =
      some (.str (severityFromLevel lvl)) := by
  by_cases hm : msg = ""
  · subst hm
    rcases t with _ | t0 <;> rcases src with _ | s0 <;> cases b <;>
      exact ⟨rfl, rfl, rfl, rfl⟩
  · refine ⟨?_, ?_, ?_, ?_⟩ <;>
      (simp only [Handle]; rw [if_pos hm]) <;>
      rcases t with _ | t0 <;> rcases src with _ | s0 <;> cases b <;>
      simp [hm] <;> rfl

/-- C8: for an error-key value that is neither a string nor an error,
`assertErrorValue` does not fail: it synthesizes a diagnostic message naming
the unsupported type and its textual form and captures a fresh report location
from the call stack (non-nil whenever the stack reaches the caller frame),
ignoring any step-2 candidate. -/
theorem assertErrorValue_unsupported_shape (cs : List ReportLocation) (v : GoAny)
    (herr : v.asError = none) (hstr : ∀ s, v ≠ .str s) :
    assertErrorValue cs v =
      ("sloggcp: unsupported type " ++ v.goTypeName ++ " with value " ++ goVFormat v,
        NewReportLocation cs 0) ∧
    (2 ≤ cs.length → (NewReportLocation cs 0).isSome) := by
  constructor
  · have hst : v.asStackTraceError = none := by
      cases v <;> simp_all [GoAny.asStackTraceError, GoAny.asError]
    have hrl : v.asReportLocationError = none := by
      cases v <;> simp_all [GoAny.asReportLocationError, GoAny.asError]
    cases v <;>
      first
        | exact absurd rfl (hstr _)
        | simp [assertErrorValue, hst, hrl, herr]
  · intro h
    rcases cs with _ | ⟨a, _ | ⟨b, rest⟩⟩
    · simp at h
    · simp at h
    · simp [NewReportLocation]

/-- C8 witness: the integer 42 under the error key yields the synthesized
diagnostic and the freshly captured caller frame. -/
theorem assertErrorValue_unsupported_shape_witness :
    assertErrorValue [⟨"rt.go", 1, "runtime.Caller"⟩, ⟨"er.go", 2, "assertErrorValue"⟩]
        (.int 42) =
      ("sloggcp: unsupported type int with value 42", some ⟨"er.go", 2, "assertErrorValue"⟩) ∧
    (NewReportLocation [⟨"rt.go", 1, "runtime.Caller"⟩, ⟨"er.go", 2, "assertErrorValue"⟩]
        0).isSome := by
  have h := assertErrorValue_unsupported_shape
    [⟨"rt.go", 1, "runtime.Caller"⟩, ⟨"er.go", 2, "assertErrorValue"⟩] (.int 42) rfl
    (fun s hh => GoAny.noConfusion hh)
  exact ⟨h.1, h.2 (by decide)⟩

set_option maxHeartbeats 4000000 in
/-- C9: `severityFromLevel` is monotone in severity rank and always returns
one of the nine defined labels. -/
theorem severity_monotone_nine_labels :
    (∀ l₁ l₂ : Int, l₁ ≤ l₂ →
      severityRank (severityFromLevel l₁) ≤ severityRank (severityFromLevel l₂)) ∧
    (∀ l : Int, severityFromLevel l ∈ [DefaultSeverity, DebugSeverity, InfoSeverity,
      NoticeSeverity, WarningSeverity, ErrorSeverity, CriticalSeverity, AlertSeverity,
      EmergencySeverity]) := by
  constructor
  · intro l₁ l₂ h
    rw [severityRank_severityFromLevel, severityRank_severityFromLevel]
    unfold levelRank
    simp only [LevelEmergency, LevelAlert, LevelCritical, LevelError, LevelWarning,
      LevelNotice, LevelInfo, LevelDebug]
    split_ifs <;> omega
  · intro l
    unfold severityFromLevel
    split_ifs <;> simp

/-- C9 witness: the info level ranks no higher than the notice level, and the
notice level's label is among the nine. -/
theorem severity_monotone_nine_labels_witness :
    severityRank (severityFromLevel 0) ≤ severityRank (severityFromLevel 2) ∧
    severityFromLevel 2 ∈ [DefaultSeverity, DebugSeverity, InfoSeverity, NoticeSeverity,
      WarningSeverity, ErrorSeverity, CriticalSeverity, AlertSeverity, EmergencySeverity] :=
  ⟨severity_monotone_nine_labels.1 0 2 (by decide), severity_monotone_nine_labels.2 2⟩

/-- C10: on a handler whose stack opens no group, a record attribute keyed as
one of the built-in output keys (severity, message, time, source-location) is
inserted into the same top-level map after the computed built-ins and so
silently overwrites them. -/
theorem record_attr_overwrites_builtin (goas : List GroupOrAttrs)
    (hall : ∀ goa ∈ goas, goa.group = "") (as : List (String × SlogValue)) (k : String)
    (v : SlogValue)
    (hk : k = SeverityKey ∨ k = MessageKey ∨ k = TimeKey ∨ k = SourceLocationKey)
    (t : Option String) (msg : String) (lvl : Int) (src : Option SourceLoc) :
    getK k (Handle ⟨⟨true, 0, none⟩, goas⟩ [] ⟨t, msg, lvl, src, as ++ [(k, v)]⟩) =
      some (extractValue v) := by
  have hemp : (as ++ [(k, v)]).isEmpty = false := by
    simp
  have heff : effectiveStack goas ⟨t, msg, lvl, src, as ++ [(k, v)]⟩ = goas := by
    simp only [effectiveStack, hemp]
    rfl
  simp only [Handle, heff]
  rw [replay_flat_eq _ _ _ _ hall]
  exact recordAttrsWalk_getK_last _ rfl _ _ _ _ _

/-- C10 witness: a record attribute keyed "severity" overwrites the computed
severity on a handler with one group-less WithAttrs batch. -/
theorem record_attr_overwrites_builtin_witness :
    getK SeverityKey
      (Handle ⟨⟨true, 0, none⟩, [⟨"", [("a", .any (.str "b"))]⟩]⟩ []
        ⟨none, "m", 0, none, [(SeverityKey, .any (.str "OVERRIDDEN"))]⟩) =
      some (extractValue (.any (.str "OVERRIDDEN"))) :=
  record_attr_overwrites_builtin [⟨"", [("a", .any (.str "b"))]⟩]
    (by intro goa hg; rw [List.mem_singleton] at hg; subst hg; rfl)
    [] SeverityKey (.any (.str "OVERRIDDEN")) (Or.inl rfl) none "m" 0 none

end Sloggcp
